import Mathlib

/-
Shallow embedding of `markdown_cleaner.py` (Markdown-Cleaner-Streamlit).

Text is modelled as `List Char`.  Every Python function used by the
formatting pipeline is translated into an executable Lean definition:

* `re.sub` calls are translated pattern by pattern into explicit scanners
  that implement the leftmost, non-overlapping match semantics of the
  concrete regular expression they embed (lazy/greedy behaviour of each
  pattern is resolved by hand and noted at the definition);
* the `while`-loops of `remove_bold_italic` and
  `force_remove_all_stars_and_underscores` shrink the text on every
  iteration, so they are written with an explicit fuel argument equal to
  the length of the text, which is an upper bound on the number of
  iterations; this keeps every definition structurally recursive and
  hence evaluable by `decide` / `rfl`;
* `str.replace(c, '')` for a one-character needle removes every
  occurrence of that character, and is embedded as such.

Python's `\w` also accepts non-ASCII word characters; here `isWordChar`
covers the ASCII word characters, and the development only evaluates the
definitions that use it on ASCII text, where the two agree.  `\s` and
`str.strip()` use the full Unicode white-space set of CPython, embedded
in `isPyWs`.
-/

abbrev Text := List Char

/-- White space as matched by Python's `\s` and `str.strip()`:
tab, LF, VT, FF, CR, FS/GS/RS/US, space, NEL, NBSP, ogham space mark,
U+2000–U+200A, LS, PS, NNBSP, MMSP, ideographic space. -/
def isPyWs (c : Char) : Bool :=
  let n := c.toNat
  (9 ≤ n && n ≤ 13) || (28 ≤ n && n ≤ 32) || n == 133 || n == 160 ||
  n == 5760 || (8192 ≤ n && n ≤ 8202) || n == 8232 || n == 8233 ||
  n == 8239 || n == 8287 || n == 12288

/-- The character class `[ \t]` used for leading indentation. -/
def isSpaceTab (c : Char) : Bool := c == ' ' || c == '\t'

/-- The character class `[a-zA-Z0-9]` (used literally in the source). -/
def isAsciiAlnum (c : Char) : Bool :=
  ('a' ≤ c && c ≤ 'z') || ('A' ≤ c && c ≤ 'Z') || ('0' ≤ c && c ≤ '9')

/-- Python's `\w` on ASCII text: `[a-zA-Z0-9_]`. -/
def isWordChar (c : Char) : Bool := isAsciiAlnum c || c == '_'

/-- The character class `\d` on ASCII text: `[0-9]`. -/
def isAsciiDigit (c : Char) : Bool := '0' ≤ c && c ≤ '9'

/-- `str.strip()`: drop Python white space from both ends. -/
def pyStrip (t : Text) : Text :=
  ((t.dropWhile isPyWs).reverse.dropWhile isPyWs).reverse

/-- `text.replace(c, '')` for a one-character needle: every occurrence
of `c` is removed. -/
def replaceCharAll (a : Char) : Text → Text
  | [] => []
  | c :: rest => if c == a then replaceCharAll a rest
                 else c :: replaceCharAll a rest

/-- `is_common_unicode` (markdown_cleaner.py lines 273-294). -/
def is_common_unicode (c : Char) : Bool :=
  let n := c.toNat
  if n ≤ 127 then true
  else if 160 ≤ n && n ≤ 255 then true
  else if 256 ≤ n && n ≤ 383 then true
  else if 8200 ≤ n && n ≤ 8230 then true
  else false

/-- The keep-condition of the character filter in
`clean_unwanted_characters` (line 268): ASCII printable, or one of
`\n`, `\t`, `\r`, or `is_common_unicode`. -/
def keepChar (c : Char) : Bool :=
  (32 ≤ c.toNat && c.toNat ≤ 126) || c == '\n' || c == '\t' || c == '\r' ||
  is_common_unicode c

/-- The five "unwanted" currency characters removed first by
`clean_unwanted_characters` (line 257). -/
def unwantedChars : List Char := ['€', '¢', '¥', '£', '¤']

/-- `clean_unwanted_characters` (markdown_cleaner.py lines 243-271):
remove the five currency characters in order, then keep only the
characters passing `keepChar`. -/
def clean_unwanted_characters (t : Text) : Text :=
  if t.isEmpty then t
  else
    let t1 := replaceCharAll '€' t
    let t2 := replaceCharAll '¢' t1
    let t3 := replaceCharAll '¥' t2
    let t4 := replaceCharAll '£' t3
    let t5 := replaceCharAll '¤' t4
    t5.filter keepChar

/-- The combined keep-predicate realised by `clean_unwanted_characters`. -/
def sanitizerKeeps (c : Char) : Bool :=
  keepChar c && !(c == '€') && !(c == '¢') && !(c == '¥') &&
  !(c == '£') && !(c == '¤')

/-! ### Generic substitution scanners

`re.sub` scans left to right, replaces the leftmost match, and resumes
immediately after the replaced span.  `scanSub` implements this for an
unanchored pattern given by a matcher `tryFn` that, on success, returns
the replacement text and the remainder after the match.  Every matcher
below consumes at least one character on success, so fuel equal to the
length of the text never runs out. -/

def scanSub (tryFn : Text → Option (Text × Text)) : Nat → Text → Text
  | 0, cs => cs
  | f+1, cs =>
    match tryFn cs with
    | some (repl, rest) => repl ++ scanSub tryFn f rest
    | none =>
      match cs with
      | [] => []
      | c :: rest => c :: scanSub tryFn f rest

/-- Scanner for `^`-anchored patterns under `re.MULTILINE`: the matcher
is attempted only at the start of the text and right after each `'\n'`.
`resume` is the line-start flag after a successful match: `false` when
the match ends at `$` (before the newline), `true` when the match itself
consumes the trailing newline (the table pattern). -/
def lineScan (resume : Bool) (tryFn : Text → Option (Text × Text)) :
    Nat → Bool → Text → Text
  | 0, _, cs => cs
  | f+1, atStart, cs =>
    match (if atStart then tryFn cs else none) with
    | some (repl, rest) => repl ++ lineScan resume tryFn f resume rest
    | none =>
      match cs with
      | [] => []
      | c :: rest => c :: lineScan resume tryFn f (c == '\n') rest

/-- Split at the first occurrence of `d`, failing if a newline comes
first: the semantics of a lazy `(.*?)` (with `.` not matching `'\n'`)
followed by the literal `d`.  Returns the content before `d` and the
remainder after it. -/
def splitAtCharNoNl (d : Char) : Text → Option (Text × Text)
  | [] => none
  | c :: rest =>
    if c == d then some ([], rest)
    else if c == '\n' then none
    else (fun p => (c :: p.1, p.2)) <$> splitAtCharNoNl d rest

/-- `'**' in text` (and `'__' in text`): two adjacent given characters. -/
def hasDD (a b : Char) : Text → Bool
  | x :: y :: rest => (x == a && y == b) || hasDD a b (y :: rest)
  | _ => false

/-- One pass of `text.replace(ab, '')` for a two-character needle:
remove every non-overlapping occurrence, scanning left to right. -/
def replace2 (a b : Char) : Text → Text
  | x :: y :: rest =>
    if x == a && y == b then replace2 a b rest
    else x :: replace2 a b (y :: rest)
  | other => other

/-- `while ab in text: text = text.replace(ab, '')`
(force_remove_all_stars_and_underscores lines 201-205).  Each iteration
removes at least two characters, so `length` iterations suffice. -/
def ddLoopFuel (a b : Char) : Nat → Text → Text
  | 0, cs => cs
  | f+1, cs => if hasDD a b cs then ddLoopFuel a b f (replace2 a b cs) else cs

def ddLoop (a b : Char) (cs : Text) : Text := ddLoopFuel a b cs.length cs

/-- Split at the first occurrence of the two-character needle `ab`
(Python `text.find(ab)`): content before it and remainder after it. -/
def splitDD (a b : Char) : Text → Option (Text × Text)
  | x :: y :: rest =>
    if x == a && y == b then some ([], rest)
    else (fun p => (x :: p.1, p.2)) <$> splitDD a b (y :: rest)
  | _ => none

/-- The find-based `while` loop of `remove_bold_italic` (lines 41-72):
find the first `ab`, find the next `ab` after it; if both exist, drop
the two delimiters and keep the content, else leave the text and stop
(`break`).  Each iteration removes four characters. -/
def pairLoopFuel (a b : Char) : Nat → Text → Text
  | 0, cs => cs
  | f+1, cs =>
    match splitDD a b cs with
    | none => cs
    | some (pre, post) =>
      match splitDD a b post with
      | none => cs
      | some (content, rest) => pairLoopFuel a b f (pre ++ content ++ rest)

def pairLoop (a b : Char) (cs : Text) : Text := pairLoopFuel a b cs.length cs

/-! ### remove_code_blocks (markdown_cleaner.py lines 99-108) -/

/-- Find the first occurrence of `'\n'` followed by three `d`s: the lazy
`(.*?)` of the fenced-block pattern (DOTALL, so the content may contain
newlines).  Returns the content before that occurrence and the
remainder after the closing fence. -/
def splitFenceClose (d : Char) : Text → Option (Text × Text)
  | '\n' :: a :: b :: c :: rest =>
    if a == d && b == d && c == d then some ([], rest)
    else (fun p => ('\n' :: p.1, p.2)) <$> splitFenceClose d (a :: b :: c :: rest)
  | c :: rest => (fun p => (c :: p.1, p.2)) <$> splitFenceClose d rest
  | [] => none

/-- One fenced-block pattern `ddd(?:\w+)?\n(.*?)\nddd` (DOTALL) with
replacement `\1`.  The optional language tag is a maximal word-character
run; the character after it must be a newline (backtracking into `\w+`
cannot succeed because every shorter run still ends at a word
character). -/
def tryFence (d : Char) : Text → Option (Text × Text)
  | a :: b :: c :: rest =>
    if a == d && b == d && c == d then
      match rest.dropWhile isWordChar with
      | '\n' :: r2 =>
        match splitFenceClose d r2 with
        | some (content, r3) => some (content, r3)
        | none => none
      | _ => none
    else none
  | _ => none

/-- The inline-code pattern (a backtick, then lazy `(.*?)`, then a
backtick) with replacement `\1`: content up to the next backtick on the
same line. -/
def tryInlineCode : Text → Option (Text × Text)
  | '`' :: rest => splitAtCharNoNl '`' rest
  | _ => none

/-- `remove_code_blocks`: backtick fences, then tilde fences, then
inline code. -/
def remove_code_blocks (t : Text) : Text :=
  let t1 := scanSub (tryFence '`') t.length t
  let t2 := scanSub (tryFence '~') t1.length t1
  scanSub tryInlineCode t2.length t2

/-! ### remove_links / remove_images (lines 111-124) -/

/-- Find the first `](` (the lazy `(.*?)\]\(` of the link pattern):
content may contain `]` not followed by `(`, but no newline. -/
def splitLinkText : Text → Option (Text × Text)
  | ']' :: '(' :: rest => some ([], rest)
  | c :: rest =>
    if c == '\n' then none
    else (fun p => (c :: p.1, p.2)) <$> splitLinkText rest
  | [] => none

/-- The link pattern `\[(.*?)\]\(.*?\)` with replacement `\1`. -/
def tryLink : Text → Option (Text × Text)
  | '[' :: rest =>
    match splitLinkText rest with
    | some (content, r2) =>
      match splitAtCharNoNl ')' r2 with
      | some (_, r3) => some (content, r3)
      | none => none
    | none => none
  | _ => none

/-- The autolink pattern `<(https?://.*?)>` with replacement `\1`. -/
def tryAutolink : Text → Option (Text × Text)
  | '<' :: 'h' :: 't' :: 't' :: 'p' :: rest =>
    let (hasS, r1) := match rest with
      | 's' :: r => (true, r)
      | r => (false, r)
    match r1 with
    | ':' :: '/' :: '/' :: r2 =>
      match splitAtCharNoNl '>' r2 with
      | some (content, r3) =>
        some (('h' :: 't' :: 't' :: 'p' :: (if hasS then ['s'] else [])) ++
              ':' :: '/' :: '/' :: content, r3)
      | none => none
    | _ => none
  | _ => none

/-- `remove_links`: `[text](url)` → `text`, then `<http(s)://url>` →
`http(s)://url`. -/
def remove_links (t : Text) : Text :=
  let t1 := scanSub tryLink t.length t
  scanSub tryAutolink t1.length t1

/-- The image pattern `!\[(.*?)\]\(.*?\)` with replacement `\1`
(`remove_images`, lines 122-124). -/
def tryImage : Text → Option (Text × Text)
  | '!' :: '[' :: rest =>
    match splitLinkText rest with
    | some (content, r2) =>
      match splitAtCharNoNl ')' r2 with
      | some (_, r3) => some (content, r3)
      | none => none
    | none => none
  | _ => none

def remove_images (t : Text) : Text := scanSub tryImage t.length t

/-! ### remove_bold_italic (markdown_cleaner.py lines 35-96)

The three italic substitutions per delimiter `d` (`'*'` or `'_'`) embed
the patterns (written here for `'*'`):
  sub1  `(\s)\*([^\s*][^*]*?[^*\s])\*(\s)`   → `\1\2\3`
  sub2  `(^|\s)\*([^\s*][^*]*?[^\s*])\*`     → `\1\2`
  sub3  `\*([^\s*][^*]*?[^\s*])\*($|\s)`     → `\1\2`
The inner group never contains `d`, so its closing delimiter is the
first `d` after the opening one; the group has at least two characters,
and its first and last characters are not white space. -/

/-- Match the inner group `[^\s d][^d]*?[^\s d]` followed by the closing
delimiter `d`: content up to the first `d`, of length at least two, not
starting or ending with white space. -/
def tryItalicInner (d : Char) (cs : Text) : Option (Text × Text) :=
  match splitAtCharNoNl d cs with
  | none => none
  | some (content, rest) =>
    match content, content.getLast? with
    | c1 :: _ :: _, some clast =>
      if isPyWs c1 || isPyWs clast then none else some (content, rest)
    | _, _ => none

/-- sub1: delimiter pair flanked by white space on both sides; the
flanking characters are groups 1 and 3 and are kept verbatim. -/
def tryEmphBoth (d : Char) : Text → Option (Text × Text)
  | w :: d0 :: rest =>
    if isPyWs w && d0 == d then
      match tryItalicInner d rest with
      | some (content, r2) =>
        match r2 with
        | w2 :: r3 => if isPyWs w2 then some (w :: content ++ [w2], r3) else none
        | [] => none
      | none => none
    else none
  | _ => none

/-- sub2, white-space alternative: `(\s)d(inner)d` with no requirement
after the closing delimiter. -/
def tryEmphWs (d : Char) : Text → Option (Text × Text)
  | w :: d0 :: rest =>
    if isPyWs w && d0 == d then
      (fun p => (w :: p.1, p.2)) <$> tryItalicInner d rest
    else none
  | _ => none

/-- sub2, `^` alternative: the pattern anchored at the start of the
line (group 1 empty). -/
def tryEmphStart (d : Char) : Text → Option (Text × Text)
  | d0 :: rest => if d0 == d then tryItalicInner d rest else none
  | [] => none

/-- sub2 applied to a whole line: the `^` alternative can only match at
position 0; afterwards only the `\s` alternative can match. -/
def applyEmphSub2 (d : Char) (line : Text) : Text :=
  match tryEmphStart d line with
  | some (repl, rest) => repl ++ scanSub (tryEmphWs d) rest.length rest
  | none => scanSub (tryEmphWs d) line.length line

/-- sub3: `d(inner)d($|\s)`; the trailing group is empty at the end of
the line, else the white-space character, kept verbatim. -/
def tryEmphEnd (d : Char) : Text → Option (Text × Text)
  | d0 :: rest =>
    if d0 == d then
      match tryItalicInner d rest with
      | some (content, r2) =>
        match r2 with
        | [] => some (content, [])
        | w2 :: r3 => if isPyWs w2 then some (content ++ [w2], r3) else none
      | none => none
    else none
  | [] => none

/-- The three italic substitutions for delimiter `d` applied in order
to one line (lines 81-85 for `'*'`, 90-94 for `'_'`). -/
def italicLine (d : Char) (line : Text) : Text :=
  let l1 := scanSub (tryEmphBoth d) line.length line
  let l2 := applyEmphSub2 d l1
  scanSub (tryEmphEnd d) l2.length l2

/-- Per-line italic handling of `remove_bold_italic` (lines 76-94).
Both guards test the original `line` loop variable of the Python code,
not the updated `lines[i]`, so the underscore guard looks at the line
as it was before the asterisk substitutions. -/
def rbiLine (line : Text) : Text :=
  let l1 := if line.any (· == '*') then italicLine '*' line else line
  if line.any (· == '_') then italicLine '_' l1 else l1

/-- `remove_bold_italic`: the two find-based pair-removal loops for
`**` and `__` over the whole text, then the per-line italic
substitutions. -/
def remove_bold_italic (t : Text) : Text :=
  if t.isEmpty then t
  else
    let t1 := pairLoop '*' '*' t
    let t2 := pairLoop '_' '_' t1
    List.intercalate ['\n'] ((List.splitOn '\n' t2).map rbiLine)

/-! ### force_remove_all_stars_and_underscores (lines 193-240)

The three fallback substitutions per delimiter `d` embed (written for
`'_'`):
  fsub1  `\s_(\w[^_\n]*?)_\s`  → `' \1 '` (literal spaces)
  fsub2  `^_(\w[^_\n]*?)_\s`   → `'\1 '`
  fsub3  `\s_(\w[^_\n]*?)_$`   → `' \1'`
The inner group starts with a word character and never contains `d`. -/

/-- Match the inner group `\w[^d\n]*?` followed by the closing `d`. -/
def tryForceInner (d : Char) (cs : Text) : Option (Text × Text) :=
  match splitAtCharNoNl d cs with
  | none => none
  | some (content, rest) =>
    match content with
    | c1 :: _ => if isWordChar c1 then some (content, rest) else none
    | [] => none

/-- fsub1: both flanking white-space characters are replaced by literal
spaces. -/
def tryForceBoth (d : Char) : Text → Option (Text × Text)
  | w :: d0 :: rest =>
    if isPyWs w && d0 == d then
      match tryForceInner d rest with
      | some (content, r2) =>
        match r2 with
        | w2 :: r3 => if isPyWs w2 then some (' ' :: content ++ [' '], r3) else none
        | [] => none
      | none => none
    else none
  | _ => none

/-- fsub2 applied to a whole line: anchored at position 0, the trailing
white-space character replaced by a literal space; at most one match. -/
def applyForceStart (d : Char) (line : Text) : Text :=
  match line with
  | d0 :: rest =>
    if d0 == d then
      match tryForceInner d rest with
      | some (content, r2) =>
        match r2 with
        | w2 :: r3 => if isPyWs w2 then content ++ ' ' :: r3 else line
        | [] => line
      | none => line
    else line
  | [] => line

/-- fsub3: the closing delimiter must be at the end of the line; the
leading white-space character is replaced by a literal space. -/
def tryForceEndWs (d : Char) : Text → Option (Text × Text)
  | w :: d0 :: rest =>
    if isPyWs w && d0 == d then
      match tryForceInner d rest with
      | some (content, r2) =>
        match r2 with
        | [] => some (' ' :: content, [])
        | _ => none
      | none => none
    else none
  | _ => none

/-- `re.search(r'[a-zA-Z0-9]d[a-zA-Z0-9]', line)`: a `d` flanked by
ASCII alphanumerics (lines 219 and 231). -/
def hasAlnumDAlnum (d : Char) : Text → Bool
  | a :: b :: c :: rest =>
    (isAsciiAlnum a && b == d && isAsciiAlnum c) ||
    hasAlnumDAlnum d (b :: c :: rest)
  | _ => false

/-- `lines[i].strip().startswith('*')`. -/
def strippedBeginsStar (line : Text) : Bool :=
  match pyStrip line with
  | c :: _ => c == '*'
  | [] => false

/-- The asterisk block of the force pass (lines 211-221): guarded by
the line not beginning (after strip) with `'*'` and containing `'*'`;
three substitutions, then an unconditional removal of the remaining
asterisks unless the line has an alphanumeric-flanked `'*'`. -/
def forceStarLine (line : Text) : Text :=
  if !(strippedBeginsStar line) && line.any (· == '*') then
    let l1 := scanSub (tryForceBoth '*') line.length line
    let l2 := applyForceStart '*' l1
    let l3 := scanSub (tryForceEndWs '*') l2.length l2
    if l3.any (· == '*') && !(hasAlnumDAlnum '*' l3) then replaceCharAll '*' l3
    else l3
  else line

/-- The underscore block of the force pass (lines 224-233). -/
def forceUnderLine (line : Text) : Text :=
  if line.any (· == '_') then
    let l1 := scanSub (tryForceBoth '_') line.length line
    let l2 := applyForceStart '_' l1
    let l3 := scanSub (tryForceEndWs '_') l2.length l2
    if l3.any (· == '_') && !(hasAlnumDAlnum '_' l3) then replaceCharAll '_' l3
    else l3
  else line

/-- `force_remove_all_stars_and_underscores` (lines 193-240), with the
`options.get('bold_italic', True)` value passed as a Boolean: delete
every `**` and `__` by the two replace-loops, process each line, and
finally remove euro signs (`re.sub` of the single character `'€'`). -/
def force_remove_all_stars_and_underscores (t : Text) (optBoldItalic : Bool) : Text :=
  if !optBoldItalic then t
  else
    let t1 := ddLoop '*' '*' t
    let t2 := ddLoop '_' '_' t1
    let lines := (List.splitOn '\n' t2).map (fun l => forceUnderLine (forceStarLine l))
    replaceCharAll '€' (List.intercalate ['\n'] lines)

/-! ### Line-anchored strippers (lines 28-32, 127-145) -/

/-- The header pattern `^([ \t]*)#{1,6}\s+(.*?)$` (MULTILINE) with
replacement `\1\2`.  A run of more than six `#` cannot match, because
the character after at most six of them is another `#`, not white
space.  `\s+` is a maximal white-space run and may cross newlines; the
lazy `(.*?)$` then reaches exactly to the next newline or the end. -/
def tryHeader (cs : Text) : Option (Text × Text) :=
  let ind := cs.takeWhile isSpaceTab
  let r1 := cs.dropWhile isSpaceTab
  let hashes := r1.takeWhile (· == '#')
  let r2 := r1.dropWhile (· == '#')
  if hashes.isEmpty || 6 < hashes.length then none
  else if (r2.takeWhile isPyWs).isEmpty then none
  else
    let r3 := r2.dropWhile isPyWs
    some (ind ++ r3.takeWhile (fun c => !(c == '\n')),
          r3.dropWhile (fun c => !(c == '\n')))

def remove_headers (t : Text) : Text := lineScan false tryHeader t.length true t

/-- The bullet pattern `^([ \t]*)[\*\-\+]\s+(.*?)$` (MULTILINE) with
replacement `\1\2`. -/
def tryBullet (cs : Text) : Option (Text × Text) :=
  let ind := cs.takeWhile isSpaceTab
  match cs.dropWhile isSpaceTab with
  | m :: r2 =>
    if m == '*' || m == '-' || m == '+' then
      if (r2.takeWhile isPyWs).isEmpty then none
      else
        let r3 := r2.dropWhile isPyWs
        some (ind ++ r3.takeWhile (fun c => !(c == '\n')),
              r3.dropWhile (fun c => !(c == '\n')))
    else none
  | [] => none

/-- The numbered-list pattern `^([ \t]*)\d+\.\s+(.*?)$` (MULTILINE)
with replacement `\1\2`. -/
def tryNumbered (cs : Text) : Option (Text × Text) :=
  let ind := cs.takeWhile isSpaceTab
  let r1 := cs.dropWhile isSpaceTab
  if (r1.takeWhile isAsciiDigit).isEmpty then none
  else
    match r1.dropWhile isAsciiDigit with
    | '.' :: r3 =>
      if (r3.takeWhile isPyWs).isEmpty then none
      else
        let r4 := r3.dropWhile isPyWs
        some (ind ++ r4.takeWhile (fun c => !(c == '\n')),
              r4.dropWhile (fun c => !(c == '\n')))
    | _ => none

/-- `remove_lists`: bullets first, then numbered lists. -/
def remove_lists (t : Text) : Text :=
  let t1 := lineScan false tryBullet t.length true t
  lineScan false tryNumbered t1.length true t1

/-- The blockquote pattern `^([ \t]*)>\s+(.*?)$` (MULTILINE) with
replacement `\1\2` (`remove_blockquotes`, lines 138-140).  At least one
white-space character must follow the `>`. -/
def tryBlockquote (cs : Text) : Option (Text × Text) :=
  let ind := cs.takeWhile isSpaceTab
  match cs.dropWhile isSpaceTab with
  | '>' :: r2 =>
    if (r2.takeWhile isPyWs).isEmpty then none
    else
      let r3 := r2.dropWhile isPyWs
      some (ind ++ r3.takeWhile (fun c => !(c == '\n')),
            r3.dropWhile (fun c => !(c == '\n')))
  | _ => none

def remove_blockquotes (t : Text) : Text :=
  lineScan false tryBlockquote t.length true t

/-- A line matching `^(?:\*{3,}|-{3,}|_{3,})$`: at least three
characters, all equal, the common character one of `*`, `-`, `_`. -/
def isHrLine : Text → Bool
  | a :: b :: c :: rest =>
    (a == '*' || a == '-' || a == '_') && b == a && c == a &&
    rest.all (· == a)
  | _ => false

/-- `remove_horizontal_rules` (lines 143-145): the pattern is anchored
on both sides and cannot cross a newline, so the substitution blanks
exactly the matching lines. -/
def remove_horizontal_rules (t : Text) : Text :=
  List.intercalate ['\n']
    ((List.splitOn '\n' t).map (fun l => if isHrLine l then [] else l))

/-! ### remove_tables (markdown_cleaner.py lines 148-190) -/

/-- A separator row: `re.match(r'^[\s\|\-:]+$', row)` — the row is
non-empty and consists only of white space, pipes, dashes, colons. -/
def isSepRow (row : Text) : Bool :=
  !(row.isEmpty) && row.all (fun c => isPyWs c || c == '|' || c == '-' || c == ':')

/-- The character loop of `process_table`: characters before the first
pipe are discarded (`in_cell` is initially false); afterwards the row
splits on `|`, and the final segment is kept only if non-empty. -/
def cellsOfRow (row : Text) : List Text :=
  match row.dropWhile (fun c => !(c == '|')) with
  | [] => []
  | _ :: rest =>
    let segs := List.splitOn '|' rest
    match segs.getLast? with
    | some [] => segs.dropLast
    | _ => segs

/-- One row: keep the cells that are non-empty after stripping, joined
by two spaces. -/
def processRow (row : Text) : Text :=
  List.intercalate [' ', ' ']
    ((cellsOfRow row).filter (fun cell => !(pyStrip cell).isEmpty))

/-- `process_table`: strip the block, split into rows, drop separator
rows, process each row, rejoin, append one newline. -/
def processTable (block : Text) : Text :=
  let rows := List.splitOn '\n' (pyStrip block)
  List.intercalate ['\n'] ((rows.filter (fun r => !(isSepRow r))).map processRow) ++ ['\n']

/-- The maximal run matched by `((?:^.*\|.*$\n)+)`: consecutive lines
each containing a pipe and each terminated by a newline (a final line
without a trailing newline is not part of the match).  Returns the
block including its newlines, and the remainder. -/
def grabTable : Nat → Text → (Text × Text)
  | 0, cs => ([], cs)
  | f+1, cs =>
    let line := cs.takeWhile (fun c => !(c == '\n'))
    if line.any (· == '|') then
      match cs.dropWhile (fun c => !(c == '\n')) with
      | '\n' :: r2 =>
        let p := grabTable f r2
        (line ++ '\n' :: p.1, p.2)
      | _ => ([], cs)
    else ([], cs)

def tryTable (cs : Text) : Option (Text × Text) :=
  match grabTable cs.length cs with
  | ([], _) => none
  | (block, rest) => some (processTable block, rest)

/-- `remove_tables`: the block pattern consumes its trailing newline,
so scanning resumes at a line start. -/
def remove_tables (t : Text) : Text := lineScan true tryTable t.length true t

/-! ### The pipeline (remove_markdown_formatting, lines 296-366) -/

/-- `re.sub(r'\n{3,}', '\n\n', text)`: a maximal newline run of length
at least three becomes exactly two newlines. -/
def collapseEmit (n : Nat) : Text :=
  if 3 ≤ n then ['\n', '\n'] else List.replicate n '\n'

def collapseGo : Nat → Text → Text
  | n, [] => collapseEmit n
  | n, c :: rest =>
    if c == '\n' then collapseGo (n+1) rest
    else collapseEmit n ++ c :: collapseGo 0 rest

def collapseNewlines (t : Text) : Text := collapseGo 0 t

/-- The nine option values as read by `options.get(kind, True)`; a
missing `options` dictionary corresponds to `Options.allOn`. -/
structure Options where
  headers : Bool
  bold_italic : Bool
  code_blocks : Bool
  links : Bool
  images : Bool
  lists : Bool
  blockquotes : Bool
  horizontal_rules : Bool
  tables : Bool

def Options.allOn : Options := ⟨true, true, true, true, true, true, true, true, true⟩

def Options.allOff : Options :=
  ⟨false, false, false, false, false, false, false, false, false⟩

/-- `remove_markdown_formatting` (lines 296-366): the guarded pipeline
in source order, then the unconditional blank-line collapse, strip, and
character sanitation. -/
def remove_markdown_formatting (t : Text) (opts : Options) : Text :=
  if t.isEmpty then []
  else
    let t1 := if opts.code_blocks then remove_code_blocks t else t
    let t2 := if opts.headers then remove_headers t1 else t1
    let t3 := if opts.bold_italic then
        force_remove_all_stars_and_underscores (remove_bold_italic t2) opts.bold_italic
      else t2
    let t4 := if opts.links then remove_links t3 else t3
    let t5 := if opts.images then remove_images t4 else t4
    let t6 := if opts.lists then remove_lists t5 else t5
    let t7 := if opts.blockquotes then remove_blockquotes t6 else t6
    let t8 := if opts.horizontal_rules then remove_horizontal_rules t7 else t7
    let t9 := if opts.tables then remove_tables t8 else t8
    clean_unwanted_characters (pyStrip (collapseNewlines t9))

/-- The emphasis-removal step of the pipeline when `bold_italic` is
enabled (lines 342-345): the targeted pass followed by the force
pass. -/
def emphasisStep (t : Text) : Text :=
  force_remove_all_stars_and_underscores (remove_bold_italic t) true

/-! ### Concrete inputs used by the claims -/

/-- `![alt](http://x.com/img.png)` -/
def imgInput : Text :=
  ['!', '[', 'a', 'l', 't', ']', '(', 'h', 't', 't', 'p', ':', '/', '/',
   'x', '.', 'c', 'o', 'm', '/', 'i', 'm', 'g', '.', 'p', 'n', 'g', ')']

/-- `**bold` — an opening `**` with no closing pair. -/
def boldOpen : Text := ['*', '*', 'b', 'o', 'l', 'd']

/-- `[# T](u)` — link text that is itself a markdown header. -/
def linkHeader : Text := ['[', '#', ' ', 'T', ']', '(', 'u', ')']

/-- `a`, `---`, `b` on three lines. -/
def dashRule : Text := ['a', '\n', '-', '-', '-', '\n', 'b']

/-- `a`, `***`, `b` on three lines. -/
def starRule : Text := ['a', '\n', '*', '*', '*', '\n', 'b']

/-- An unterminated backtick fence: a fence line, then `foo`. -/
def fenceBt : Text := ['`', '`', '`', '\n', 'f', 'o', 'o']

/-- An unterminated tilde fence. -/
def fenceTl : Text := ['~', '~', '~', '\n', 'f', 'o', 'o']

/-- `>> text` — a nested blockquote with no space between the markers. -/
def quote2 : Text := ['>', '>', ' ', 't', 'e', 'x', 't']

/-- `> > text` — a nested blockquote with spaced markers. -/
def quoteSp : Text := ['>', ' ', '>', ' ', 't', 'e', 'x', 't']

/-- `variable_name = 5` -/
def snakeLine : Text :=
  ['v', 'a', 'r', 'i', 'a', 'b', 'l', 'e', '_', 'n', 'a', 'm', 'e',
   ' ', '=', ' ', '5']

/-- `x _ab_c d` — the underscore after `b` is flanked by the
alphanumerics `b` and `c`. -/
def flankLine : Text := ['x', ' ', '_', 'a', 'b', '_', 'c', ' ', 'd']

/-! ### Shared lemmas -/

theorem replaceCharAll_eq_filter (a : Char) (t : Text) :
    replaceCharAll a t = t.filter (fun c => !(c == a)) := by
  induction t with
  | nil => rfl
  | cons c rest ih =>
    by_cases h : c = a
    · simp [replaceCharAll, h, List.filter, ih]
    · have hb : (c == a) = false := by simp [h]
      simp [replaceCharAll, hb, List.filter, ih]

theorem clean_unwanted_characters_eq_filter (t : Text) :
    clean_unwanted_characters t = t.filter sanitizerKeeps := by
  cases t with
  | nil => rfl
  | cons c rest =>
    simp only [clean_unwanted_characters, List.isEmpty_cons, Bool.false_eq_true,
      if_false, replaceCharAll_eq_filter, List.filter_filter]
    apply List.filter_congr
    intro x _
    simp only [sanitizerKeeps]
    cases keepChar x <;> cases x == '€' <;> cases x == '¢' <;>
      cases x == '¥' <;> cases x == '£' <;> cases x == '¤' <;> rfl

theorem replace2_length_le (a b : Char) : ∀ cs : Text, (replace2 a b cs).length ≤ cs.length
  | [] => by simp [replace2]
  | [x] => by simp [replace2]
  | x :: y :: rest => by
    by_cases h : (x == a && y == b) = true
    · simp only [replace2, h, if_true]
      have := replace2_length_le a b rest
      simp only [List.length_cons]
      omega
    · have h' : (x == a && y == b) = false := by simpa using h
      simp only [replace2, h', Bool.false_eq_true, if_false]
      have := replace2_length_le a b (y :: rest)
      simp only [List.length_cons] at this ⊢
      omega

theorem replace2_shrink (a b : Char) : ∀ cs : Text,
    hasDD a b cs = true → (replace2 a b cs).length + 2 ≤ cs.length
  | [] => by intro h; simp [hasDD] at h
  | [x] => by intro h; simp [hasDD] at h
  | x :: y :: rest => by
    intro h
    by_cases hxy : (x == a && y == b) = true
    · simp only [replace2, hxy, if_true]
      have := replace2_length_le a b rest
      simp only [List.length_cons]
      omega
    · have hxy' : (x == a && y == b) = false := by simpa using hxy
      simp only [replace2, hxy', Bool.false_eq_true, if_false]
      have hdd : hasDD a b (y :: rest) = true := by
        simp only [hasDD, hxy', Bool.false_or] at h
        exact h
      have := replace2_shrink a b (y :: rest) hdd
      simp only [List.length_cons] at this ⊢
      omega

theorem ddLoopFuel_noDD (a b : Char) :
    ∀ (f : Nat) (cs : Text), cs.length ≤ 2 * f →
      hasDD a b (ddLoopFuel a b f cs) = false := by
  intro f
  induction f with
  | zero =>
    intro cs h
    have : cs = [] := List.eq_nil_of_length_eq_zero (by omega)
    subst this
    simp [ddLoopFuel, hasDD]
  | succ f ih =>
    intro cs h
    by_cases hdd : hasDD a b cs = true
    · simp only [ddLoopFuel, hdd, if_true]
      exact ih _ (by have := replace2_shrink a b cs hdd; omega)
    · have hdd' : hasDD a b cs = false := by simpa using hdd
      simp [ddLoopFuel, hdd']

theorem ddLoop_noDD (a b : Char) (cs : Text) : hasDD a b (ddLoop a b cs) = false :=
  ddLoopFuel_noDD a b cs.length cs (by omega)

theorem lineScan_id_of_no_newline (resume : Bool)
    (tryFn : Text → Option (Text × Text)) :
    ∀ (f : Nat) (cs : Text), (∀ c ∈ cs, ¬ c = '\n') →
      lineScan resume tryFn f false cs = cs := by
  intro f
  induction f with
  | zero => intro cs _; rfl
  | succ f ih =>
    intro cs h
    cases cs with
    | nil => rfl
    | cons c rest =>
      have hc : (c == '\n') = false := by
        simpa using h c (List.mem_cons_self c rest)
      rw [show lineScan resume tryFn (f+1) false (c :: rest) =
            c :: lineScan resume tryFn f (c == '\n') rest from rfl, hc]
      rw [ih rest (fun x hx => h x (List.mem_cons_of_mem c hx))]

theorem is_common_unicode_iff (c : Char) :
    is_common_unicode c = true ↔
      (c.toNat ≤ 127 ∨ (160 ≤ c.toNat ∧ c.toNat ≤ 255) ∨
       (256 ≤ c.toNat ∧ c.toNat ≤ 383) ∨
       (8200 ≤ c.toNat ∧ c.toNat ≤ 8230)) := by
  simp only [is_common_unicode]
  split_ifs with h1 h2 h3 h4 <;>
    simp_all [Bool.and_eq_true, decide_eq_true_eq]

theorem keepChar_iff (c : Char) :
    keepChar c = true ↔
      (c.toNat ≤ 127 ∨ (160 ≤ c.toNat ∧ c.toNat ≤ 383) ∨
       (8200 ≤ c.toNat ∧ c.toNat ≤ 8230)) := by
  simp only [keepChar, Bool.or_eq_true, Bool.and_eq_true, decide_eq_true_eq,
    beq_iff_eq, is_common_unicode_iff]
  constructor
  · rintro ((((⟨h1, h2⟩ | rfl) | rfl) | rfl) | h)
    · left; omega
    · left; decide
    · left; decide
    · left; decide
    · omega
  · intro h
    right
    omega

theorem sanitizerKeeps_iff (c : Char) :
    sanitizerKeeps c = true ↔
      ((c.toNat ≤ 127 ∨ (160 ≤ c.toNat ∧ c.toNat ≤ 383) ∨
        (8200 ≤ c.toNat ∧ c.toNat ≤ 8230)) ∧ ¬ c ∈ unwantedChars) := by
  simp only [sanitizerKeeps, Bool.and_eq_true, Bool.not_eq_true',
    beq_eq_false_iff_ne, ne_eq, keepChar_iff, unwantedChars,
    List.mem_cons, List.not_mem_nil, or_false, not_or,
    List.mem_singleton]
  tauto

/-! ### The claims -/

/-- Claim C1 (code bug): with all nine kinds enabled the pipeline maps
`![alt](http://x.com/img.png)` to `!alt`, not to `alt`: `remove_links`
runs before `remove_images`, its pattern `\[(.*?)\]\(.*?\)` consumes
`[alt](http://x.com/img.png)`, and the stray `!` is left behind, so the
image stripper never sees an image token. -/
theorem C1_image_token_partially_consumed :
    remove_markdown_formatting imgInput Options.allOn = ['!', 'a', 'l', 't'] := by
  rfl

/-- Claim C2, counterexample: the input `**bold` holds an opening `**`
with no closing pair, yet the emphasis-removal step (bold_italic
enabled) returns `bold`: the unmatched delimiter is silently dropped,
not left as-is. -/
theorem C2_unmatched_bold_dropped_cx :
    hasDD '*' '*' boldOpen = true ∧
    emphasisStep boldOpen = ['b', 'o', 'l', 'd'] ∧
    hasDD '*' '*' (emphasisStep boldOpen) = false :=
  ⟨by decide, by rfl, by decide⟩

/-- Claim C2, amended: `remove_bold_italic` alone does leave an
unmatched `**` as-is (its pair loop stops at an unpaired delimiter),
but the emphasis step then runs the force pass, whose replace-loops
delete every remaining `**` and `__` outright, so the step's output of
those loops never contains a double delimiter and `**bold` becomes
`bold`. -/
theorem C2_force_pass_deletes_double_delims :
    (∀ cs : Text, hasDD '*' '*' (ddLoop '*' '*' cs) = false) ∧
    (∀ cs : Text, hasDD '_' '_' (ddLoop '_' '_' cs) = false) ∧
    remove_bold_italic boldOpen = boldOpen ∧
    emphasisStep boldOpen = ['b', 'o', 'l', 'd'] :=
  ⟨fun cs => ddLoop_noDD '*' '*' cs, fun cs => ddLoop_noDD '_' '_' cs,
   by rfl, by rfl⟩

/-- Claim C3, counterexample: the pipeline is not idempotent: cleaning
`[# T](u)` yields `# T` (the link stripper uncovers a header), and
cleaning again yields `T`. -/
theorem C3_pipeline_not_idempotent_cx :
    remove_markdown_formatting linkHeader Options.allOn = ['#', ' ', 'T'] ∧
    remove_markdown_formatting (remove_markdown_formatting linkHeader Options.allOn)
      Options.allOn = ['T'] ∧
    (['#', ' ', 'T'] : Text) ≠ ['T'] :=
  ⟨by rfl, by rfl, by decide⟩

/-- Claim C3, amended: applying the full pipeline twice can differ from
applying it once, because one pass may uncover markdown that only the
next pass strips; among the pipeline stages only the final character
sanitizer is idempotent, which is proved here for every input. -/
theorem C3_sanitizer_idempotent (t : Text) :
    clean_unwanted_characters (clean_unwanted_characters t) =
      clean_unwanted_characters t := by
  rw [clean_unwanted_characters_eq_filter, clean_unwanted_characters_eq_filter,
    List.filter_filter]
  apply List.filter_congr
  intro x _
  cases sanitizerKeeps x <;> rfl

/-- Claim C4, counterexample: with all nine kinds enabled the line
`***` between content lines does not become an empty line: the bold
pair-loop leaves it, the force pass deletes one `**` leaving a single
`*`, and the bullet-list pattern then consumes `*` together with the
newline (its `\s+` matches the newline), so `a\n***\nb` cleans to
`a\nb`, not `a\n\nb`. -/
theorem C4_star_rule_line_not_blanked_cx :
    remove_markdown_formatting starRule Options.allOn = ['a', '\n', 'b'] ∧
    remove_markdown_formatting starRule Options.allOn ≠ ['a', '\n', '\n', 'b'] :=
  ⟨by rfl, by decide⟩

/-- Claim C4, amended: `remove_horizontal_rules` itself blanks every
line consisting solely of three or more repeated `*`, `-` or `_`; under
the full pipeline this survives for `-` rules: `a\n---\nb` becomes
`a\n\nb` with the neighbouring lines untouched.  A `*` rule line,
however, is consumed earlier by the emphasis passes (and the list
stripper), so the claim holds for dashes but not for every rule
character. -/
theorem C4_dash_rule_becomes_empty_line :
    (∀ (n : Nat) (c : Char), 3 ≤ n → (c = '*' ∨ c = '-' ∨ c = '_') →
      isHrLine (List.replicate n c) = true) ∧
    remove_markdown_formatting dashRule Options.allOn = ['a', '\n', '\n', 'b'] := by
  constructor
  · intro n c hn hc
    obtain ⟨m, rfl⟩ : ∃ m, n = m + 3 := ⟨n - 3, by omega⟩
    have hrep : List.replicate (m + 3) c = c :: c :: c :: List.replicate m c := by
      rw [show m + 3 = (m + 2) + 1 from rfl, List.replicate_succ,
        show m + 2 = (m + 1) + 1 from rfl, List.replicate_succ,
        List.replicate_succ]
    rw [hrep]
    have hall : (List.replicate m c).all (· == c) = true := by
      simp [List.all_eq_true, List.mem_replicate]
    rcases hc with rfl | rfl | rfl <;> simp [isHrLine, hall]
  · rfl

/-- Witness for C4: the universal part applied to the line `---`. -/
theorem C4_dash_rule_witness :
    isHrLine (List.replicate 3 '-') = true :=
  C4_dash_rule_becomes_empty_line.1 3 '-' (by decide) (Or.inr (Or.inl rfl))

/-- Claim C5, counterexample: an unterminated backtick fence is not
left unmodified by `remove_code_blocks`: the inline-code substitution
still strips a backtick pair from the fence line, so three backticks
followed by `foo` become one backtick followed by `foo`. -/
theorem C5_unterminated_fence_edited_cx :
    remove_code_blocks fenceBt = ['`', '\n', 'f', 'o', 'o'] ∧
    remove_code_blocks fenceBt ≠ fenceBt :=
  ⟨by rfl, by decide⟩

/-- Claim C5, amended: the fenced-block substitution itself leaves an
unterminated fence alone (it requires the full fence-content-fence
shape), and an unterminated tilde fence passes through
`remove_code_blocks` unmodified; but for a backtick fence the
inline-code substitution then consumes backtick pairs from the fence
line itself. -/
theorem C5_unterminated_fence_block_rule :
    scanSub (tryFence '`') fenceBt.length fenceBt = fenceBt ∧
    remove_code_blocks fenceTl = fenceTl ∧
    remove_code_blocks fenceBt = ['`', '\n', 'f', 'o', 'o'] :=
  ⟨by rfl, by rfl, by rfl⟩

/-- Claim C6, counterexample: one application of the blockquote
stripper leaves `>> text` entirely unchanged — it does not remove one
`>` to give `> text`, because the pattern `^([ \t]*)>\s+(.*?)$`
requires white space right after the first `>`. -/
theorem C6_nested_quote_unchanged_cx :
    remove_blockquotes quote2 = quote2 ∧
    remove_blockquotes quote2 ≠ ['>', ' ', 't', 'e', 'x', 't'] :=
  ⟨by rfl, by decide⟩

/-- Claim C6, amended: a single-line input beginning with `>>` is left
unchanged by `remove_blockquotes` (the second `>` blocks the required
white space), for any tail without a newline; a spaced nesting
`> > text` does lose exactly one `>` per pass. -/
theorem C6_blockquote_needs_space :
    (∀ t : Text, (∀ c ∈ t, ¬ c = '\n') →
      remove_blockquotes ('>' :: '>' :: t) = '>' :: '>' :: t) ∧
    remove_blockquotes quoteSp = ['>', ' ', 't', 'e', 'x', 't'] := by
  constructor
  · intro t h
    have h0 : tryBlockquote ('>' :: '>' :: t) = none := by
      simp [tryBlockquote, List.takeWhile_cons, List.dropWhile_cons,
        show isSpaceTab '>' = false from rfl, show isPyWs '>' = false from rfl]
    have key : ∀ f : Nat,
        lineScan false tryBlockquote (f + 1) true ('>' :: '>' :: t) =
          '>' :: lineScan false tryBlockquote f false ('>' :: t) := by
      intro f
      simp only [lineScan, h0, eq_self_iff_true, if_true]
      rw [show ('>' == '\n') = false from rfl]
    show lineScan false tryBlockquote (('>' :: '>' :: t).length) true
      ('>' :: '>' :: t) = '>' :: '>' :: t
    rw [show ('>' :: '>' :: t).length = (t.length + 1) + 1 from by simp, key]
    rw [lineScan_id_of_no_newline false tryBlockquote (t.length + 1) ('>' :: t)
      (by intro c hc
          rcases List.mem_cons.mp hc with rfl | hc
          · decide
          · exact h c hc)]
  · rfl

/-- Witness for C6: the universal part applied to the tail of
`>> text`. -/
theorem C6_blockquote_needs_space_witness :
    remove_blockquotes ('>' :: '>' :: [' ', 't']) = '>' :: '>' :: [' ', 't'] :=
  C6_blockquote_needs_space.1 [' ', 't'] (by decide)

/-- Claim C7, counterexample: the claimed allow-list does not match the
code in either direction: `¢` lies in the Latin-1 Supplement band (and
`is_common_unicode` accepts it) yet the sanitizer drops it, while the
ASCII control character U+0001 — which the claim says is dropped — is
kept, because `is_common_unicode` accepts every code point up to
127. -/
theorem C7_allowlist_mismatch_cx :
    is_common_unicode '¢' = true ∧
    clean_unwanted_characters ['¢'] = [] ∧
    clean_unwanted_characters ['\x01'] = ['\x01'] :=
  ⟨by decide, by decide, by decide⟩

/-- Claim C7, amended: the sanitizer keeps exactly the characters with
code point at most 127 (all of ASCII, control characters included), or
in 160–383 (Latin-1 Supplement without the C1 controls, and Latin
Extended-A), or in 8200–8230, minus the five currency characters
`€ ¢ ¥ £ ¤`, which are removed beforehand; every other character is
dropped silently. -/
theorem C7_sanitizer_exact_charset (t : Text) (c : Char) :
    c ∈ clean_unwanted_characters t ↔
      (c ∈ t ∧ (c.toNat ≤ 127 ∨ (160 ≤ c.toNat ∧ c.toNat ≤ 383) ∨
        (8200 ≤ c.toNat ∧ c.toNat ≤ 8230)) ∧ ¬ c ∈ unwantedChars) := by
  rw [clean_unwanted_characters_eq_filter]
  simp [List.mem_filter, sanitizerKeeps_iff, and_assoc]

/-- Claim C8, counterexample: an underscore flanked by alphanumerics on
both sides can be removed by the emphasis passes: in `x _ab_c d` the
underscore between `b` and `c` closes the `_ab_` pair matched by the
second italic pattern (whose opening `_` follows a space), and the
emphasis step returns `x abc d` with no underscore left. -/
theorem C8_flanked_underscore_removed_cx :
    flankLine = ['x', ' ', '_', 'a', 'b', '_', 'c', ' ', 'd'] ∧
    emphasisStep flankLine = ['x', ' ', 'a', 'b', 'c', ' ', 'd'] ∧
    ¬ '_' ∈ emphasisStep flankLine :=
  ⟨rfl, by rfl, by decide⟩

/-- Claim C8, amended: the concrete guarantee holds — the line
`variable_name = 5` keeps its underscore through the emphasis passes
and through the whole pipeline with all nine kinds enabled — but the
general rule fails: an alphanumeric-flanked underscore is preserved
only when it cannot serve as the closing delimiter of an italic pair
whose opening underscore follows white space or the line start. -/
theorem C8_snake_case_survives :
    emphasisStep snakeLine = snakeLine ∧
    remove_markdown_formatting snakeLine Options.allOn = snakeLine :=
  ⟨by rfl, by rfl⟩

/-- Claim C9: for every input and every options record, every character
of the pipeline output has code point at most 383 or between 8200 and
8230, and none of `€ ¢ ¥ £ ¤` occurs: the sanitizer runs
unconditionally as the last step and its keep-predicate admits only
those ranges. -/
theorem C9_output_charset_invariant (t : Text) (o : Options) (c : Char)
    (hc : c ∈ remove_markdown_formatting t o) :
    (c.toNat ≤ 383 ∨ (8200 ≤ c.toNat ∧ c.toNat ≤ 8230)) ∧
    ¬ c ∈ unwantedChars := by
  unfold remove_markdown_formatting at hc
  by_cases ht : t.isEmpty = true
  · simp [ht] at hc
  · have ht' : t.isEmpty = false := by simpa using ht
    simp only [ht', Bool.false_eq_true, if_false] at hc
    rw [clean_unwanted_characters_eq_filter] at hc
    have h2 := (List.mem_filter.mp hc).2
    rw [sanitizerKeeps_iff] at h2
    obtain ⟨hr, hm⟩ := h2
    exact ⟨by omega, hm⟩

/-- Witness for C9: instantiated at the one-character input `a` with
all kinds enabled. -/
theorem C9_output_charset_witness :
    (('a').toNat ≤ 383 ∨ (8200 ≤ ('a').toNat ∧ ('a').toNat ≤ 8230)) ∧
    ¬ 'a' ∈ unwantedChars :=
  C9_output_charset_invariant ['a'] Options.allOn 'a' (by decide)

/-- Claim C10: even with every one of the nine kinds disabled, the
pipeline still collapses newline runs, strips the ends, and applies the
character sanitizer — for every non-empty input the result is exactly
the sanitizer applied to the stripped, collapsed text — and therefore
it does not return the input verbatim in general, e.g. a text with
surrounding spaces comes back stripped. -/
theorem C10_disabled_still_normalizes :
    (∀ t : Text, t ≠ [] →
      remove_markdown_formatting t Options.allOff =
        clean_unwanted_characters (pyStrip (collapseNewlines t))) ∧
    remove_markdown_formatting [' ', 'a', ' '] Options.allOff ≠ [' ', 'a', ' '] := by
  constructor
  · intro t ht
    have ht' : t.isEmpty = false := by
      cases t with
      | nil => exact absurd rfl ht
      | cons c rest => rfl
    unfold remove_markdown_formatting
    simp [ht', Options.allOff]
  · decide

/-- Witness for C10: instantiated at the one-character input `x`. -/
theorem C10_disabled_witness :
    remove_markdown_formatting ['x'] Options.allOff =
      clean_unwanted_characters (pyStrip (collapseNewlines ['x'])) :=
  C10_disabled_still_normalizes.1 ['x'] (by decide)
